import Mathlib

/-!
# sendpkt: a shallow embedding of `sendpkt.c`

The C program keeps all of its state in global variables.  The embedding
collects them in one record, `Globals`, and turns every C function into a
function on that record.  Everything the program obtains from the outside
(signals, the return values of `select`, `random`, `sendto`, `time`,
`socket`, the parsed command line) is an explicit argument.

Machine integers are `Nat`/`Int` with explicit wraparound:
`unsigned int` is 32 bits wide, `long` and `time_t` are 64 bits wide.
-/

namespace Sendpkt

/-! ## Machine arithmetic -/

/-- Conversion of an integer value to `unsigned int`: reduction modulo `2^32`. -/
def toUInt (x : Int) : Nat := (x % 4294967296).toNat

/-- Conversion of an integer value to `long` / `time_t`: 64-bit two's complement. -/
def toLong (x : Int) : Int :=
  (x + 9223372036854775808) % 18446744073709551616 - 9223372036854775808

/-- The value `printf` shows for a `long` passed to `%lu`: reduction modulo `2^64`. -/
def toULong (x : Int) : Nat := (x % 18446744073709551616).toNat

/-- The operator `~` on an `unsigned int`: every one of the 32 bits is flipped. -/
def not32 (x : Nat) : Nat := x ^^^ 4294967295

/-- Reversal of the four bytes of a 32-bit word. -/
def bswap32 (x : Nat) : Nat :=
  ((x &&& 255) <<< 24) ||| ((x &&& 65280) <<< 8) |||
    ((x >>> 8) &&& 65280) ||| ((x >>> 24) &&& 255)

/-- Where byte reversal moves a bit: bit `i` of the reversed word is bit `bitSwap i`
of the word. -/
def bitSwap (i : Nat) : Nat :=
  if i < 8 then i + 24 else if i < 16 then i + 8 else if i < 24 then i - 8 else i - 24

/-- What the program cannot know about the machine it runs on. -/
structure Host where
  /-- Byte order of the host: `htonl` swaps bytes exactly on little-endian hosts. -/
  littleEndian : Bool
  /-- The value the host produces for `1 << 32`, a shift by the full width of `int`,
  which C leaves undefined. -/
  shiftFull : Nat

/-- The libc function `htonl`: host to network (big-endian) byte order. -/
def htonl (h : Host) (x : Nat) : Nat :=
  if h.littleEndian then bswap32 x else x

/-- The libc function `ntohl`: network to host byte order. -/
def ntohl (h : Host) (x : Nat) : Nat :=
  if h.littleEndian then bswap32 x else x

/-- The expression `1 << n` for a count `n`, as a 32-bit pattern. -/
def shl1 (h : Host) (n : Nat) : Nat :=
  if n < 32 then (1 <<< n) % 4294967296 else h.shiftFull

/-! ## Program state -/

/-- One line written by `stats`. The averages are present only in the first
`printf` of `stats`. -/
structure StatsLine where
  packets : Nat
  bytes : Nat
  seconds : Nat
  average : Option (Nat × Nat)
  deriving DecidableEq, Repr

/-- What the program does that is visible from outside, in order. -/
inductive Out where
  | selectError
  | debugSigterm
  | debugSigint
  | statsLine (l : StatsLine)
  | debugWriting (size : Nat) (addr : Nat)
  | sendto (addr : Nat) (size : Nat)
  | sendtoError
  | debugWrote (n : Int)
  | banner (prefixLen : Nat) (rate : Nat) (usec : Nat)
  deriving DecidableEq, Repr

/-- The global variables of `sendpkt.c`.  `dest` stands for the address string and
holds the value `inet_addr(dest)` returns for it; `destaddr` holds
`destaddr.sin_addr.s_addr`; `data` holds the pointer value, 0 for `NULL`; `out` is the
record of calls and messages so far. -/
structure Globals where
  debug : Nat := 0
  packetLimit : Nat := 0
  timeLimit : Nat := 5
  rate : Nat := 1
  size : Nat := 1472
  port : Nat := 6012
  setTOS : Nat := 0
  interval_usec : Nat := 0
  interval_sec : Nat := 0
  TOS : Nat := 0
  inetfd : Int := 0
  dest : Nat := 0
  destaddr : Nat := 0
  prefixLen : Nat := 0
  mask : Nat := 0
  data : Nat := 0
  packets : Nat := 0
  bytes : Nat := 0
  start : Int := 0
  now : Int := 0
  run : Bool := true
  sigalrm : Bool := false
  sighup : Bool := false
  sigint : Bool := false
  sigterm : Bool := false
  siginfo : Bool := false
  out : List Out := []
  deriving DecidableEq, Repr

/-- The signals a handler is installed for, and any other signal. -/
inductive Signal where
  | SIGTERM | SIGINT | SIGHUP | SIGALRM | SIGINFO | other
  deriving DecidableEq, Repr

/-- Function `signal_handler`: one flag per signal. -/
def signal_handler (signum : Signal) (g : Globals) : Globals :=
  let g := if signum = Signal.SIGTERM then { g with sigterm := true } else g
  let g := if signum = Signal.SIGINT then { g with sigint := true } else g
  let g := if signum = Signal.SIGHUP then { g with sighup := true } else g
  let g := if signum = Signal.SIGALRM then { g with sigalrm := true } else g
  if signum = Signal.SIGINFO then { g with siginfo := true } else g

/-- Function `stats`; `t` is the value `time(NULL)` returns. -/
def stats (t : Int) (g : Globals) : Globals :=
  let g := { g with now := t }
  let elapsed := toLong (g.now - g.start)
  if elapsed > 0 then
    { g with out := g.out ++ [Out.statsLine
        { packets := g.packets, bytes := g.bytes, seconds := toULong elapsed,
          average := some (toULong (Int.tdiv (g.packets : Int) elapsed),
            toULong (Int.tdiv (toLong ((g.bytes : Int) * 8)) elapsed)) }] }
  else
    { g with out := g.out ++ [Out.statsLine
        { packets := g.packets, bytes := g.bytes, seconds := toULong elapsed,
          average := none }] }

/-! ## The run loop -/

/-- What the outside world supplies during one pass through the loop body.  Signals
are delivered while `select` waits, the only point at which the loop is suspended; the
flags they set are the ones the checks after the wait read. -/
structure Cycle where
  /-- Signals delivered while `select` waits. -/
  signals : List Signal
  /-- Return value of `select`. -/
  select : Int
  /-- Whether `errno` is `EINTR` after `select`. -/
  eintr : Bool
  /-- Value of `time(NULL)`, read if `stats` is called. -/
  time : Int
  /-- Return value of `random()`. -/
  random : Nat
  /-- Value of `result` after the call of `sendto`. -/
  sendto : Int
  deriving DecidableEq, Repr

/-- Lines 101-112: the call of `select` and the handling of its result. -/
def waitStep (e : Cycle) (g : Globals) : Globals :=
  let g := e.signals.foldl (fun acc s => signal_handler s acc) g
  if e.select = -1 then
    if e.eintr = false then { g with out := g.out ++ [Out.selectError], run := false }
    else g
  else g

/-- Lines 136-140: the destination address of this cycle. -/
def randomDest (h : Host) (e : Cycle) (g : Globals) : Nat :=
  let a := g.dest
  let a := a &&& htonl h (not32 g.mask)
  (a + htonl h ((e.random &&& g.mask) % 4294967296)) % 4294967296

/-- Lines 136-152: the address, the call of `sendto` and the handling of its result. -/
def sendStep (h : Host) (e : Cycle) (g : Globals) : Globals :=
  let g := { g with destaddr := randomDest h e g }
  let g := if g.debug ≠ 0 then { g with out := g.out ++ [Out.debugWriting g.size g.destaddr] }
    else g
  let g := { g with out := g.out ++ [Out.sendto g.destaddr g.size] }
  if e.sendto = -1 then
    { g with out := g.out ++ [Out.sendtoError] }
  else
    let g := if g.debug ≠ 0 then { g with out := g.out ++ [Out.debugWrote e.sendto] } else g
    let g := { g with packets := (g.packets + 1) % 4294967296 }
    { g with bytes := toUInt ((g.bytes : Int) + e.sendto) }

/-- Lines 154-157: the packet-count limit. -/
def limitStep (g : Globals) : Globals :=
  if g.packetLimit ≠ 0 then
    let g := { g with packetLimit := g.packetLimit - 1 }
    if g.packetLimit = 0 then { g with run := false } else g
  else g

/-- Lines 119-122: the hangup flag is cleared and nothing else is done. -/
def hupStep (g : Globals) : Globals :=
  if g.sighup then { g with sighup := false } else g

/-- Lines 131-134: a requested report is written and its flag cleared. -/
def reportStep (e : Cycle) (g : Globals) : Globals :=
  if g.siginfo then { stats e.time g with siginfo := false } else g

/-- Lines 114-157: the flag checks and, unless a `continue` is taken, the rest of
the loop body. -/
def checkStep (h : Host) (e : Cycle) (g : Globals) : Globals :=
  if g.sigalrm then
    { g with sigalrm := false, run := false }
  else
    let g := hupStep g
    if g.sigterm then
      let g := if g.debug ≠ 0 then { g with out := g.out ++ [Out.debugSigterm] } else g
      { g with run := false }
    else if g.sigint then
      let g := if g.debug ≠ 0 then { g with out := g.out ++ [Out.debugSigint] } else g
      { g with run := false }
    else
      limitStep (sendStep h e (reportStep e g))

/-- One pass through the body of `while (run)`. -/
def cycle (h : Host) (e : Cycle) (g : Globals) : Globals :=
  checkStep h e (waitStep e g)

/-- Function `runloop`.  The list holds what the outside world supplies, one entry
per cycle.  The result is the state in which the loop was left together with the
entries not used, or `none` when the list ends while `run` is still set. -/
def runloop (h : Host) : List Cycle → Globals → Option (Globals × List Cycle)
  | [], g => if g.run then none else some (g, [])
  | e :: es, g => if g.run then runloop h es (cycle h e g) else some (g, e :: es)

/-- Number of `sendto` calls recorded so far. -/
def sends (g : Globals) : Nat :=
  g.out.countP (fun o => match o with
    | Out.sendto _ _ => true
    | _ => false)

/-- One result of `getopt`, with `atoi(optarg)` where the option takes an argument;
`other` is any result the `switch` sends to `default`. -/
inductive Opt where
  | d
  | s (v : Int)
  | c (v : Int)
  | r (v : Int)
  | t (v : Int)
  | p (v : Int)
  | Q (v : Int)
  | other
  deriving DecidableEq, Repr

/-- What `main` obtains from the outside before the loop starts. -/
structure Invocation where
  /-- Results of `getopt` in order. -/
  opts : List Opt
  /-- Value of `argc - optind`: the number of arguments left after the options. -/
  operands : Int
  /-- Pointer value `strdup(argv[0])` returns, 0 for `NULL`. -/
  strdup : Nat
  /-- Value of `inet_addr` for the part of the argument before `/`. -/
  dest : Nat
  /-- Value of `atoi` for the part after `/`, if there is one. -/
  prefixLenStr : Option Int
  /-- Return value of `socket`. -/
  socket : Int
  /-- Pointer value `malloc(size)` returns, 0 for `NULL`. -/
  malloc : Nat
  /-- Return value of `time(NULL)` before the loop. -/
  time : Int
  deriving DecidableEq, Repr

/-- How the process ends when `main` does not get as far as `runloop`, and the status
`main` returns after it: a call of `exit` or a `return` with a status, or a fault on
an access through a null pointer. -/
inductive Halt where
  | exit (status : Nat)
  | fault
  deriving DecidableEq, Repr

/-- Function `usage`: it ends the process with exit status 1. -/
def usage : Except Halt Globals := Except.error (Halt.exit 1)

/-- One pass through the `switch` of the `getopt` loop. -/
def applyOpt (g : Globals) : Opt → Except Halt Globals
  | Opt.d => Except.ok { g with debug := (g.debug + 1) % 4294967296 }
  | Opt.s v => Except.ok { g with size := toUInt v }
  | Opt.c v => Except.ok { g with packetLimit := toUInt v }
  | Opt.r v => Except.ok { g with rate := toUInt v }
  | Opt.t v => Except.ok { g with timeLimit := toUInt v }
  | Opt.p v => Except.ok { g with port := toUInt v }
  | Opt.Q v => Except.ok { g with TOS := toUInt v, setTOS := 1 }
  | Opt.other => usage

/-- The `getopt` loop. -/
def parseOpts : List Opt → Globals → Except Halt Globals
  | [], g => Except.ok g
  | o :: os, g =>
    match applyOpt g o with
    | Except.ok g1 => parseOpts os g1
    | Except.error c => Except.error c

/-- Lines 204-205: the mask for a prefix length. -/
def maskOf (h : Host) (prefixLen : Nat) : Nat :=
  let mask := toUInt ((shl1 h (toUInt (32 - (prefixLen : Int))) : Int) - 1)
  if prefixLen = 0 then toUInt (-1) else mask

/-- Lines 193-205, given the copy of the operand: the destination, the prefix length
and the mask. -/
def setMask (h : Host) (inv : Invocation) (g : Globals) : Except Halt Globals :=
  let g := { g with dest := inv.dest }
  let g := { g with prefixLen := toUInt (inv.prefixLenStr.getD 32) }
  if g.prefixLen > 32 then Except.error (Halt.exit 1)
  else Except.ok { g with mask := maskOf h g.prefixLen }

/-- Lines 215-224: the interval handed to `select`. -/
def setInterval (g : Globals) : Globals :=
  let g :=
    if g.rate ≤ 1 then
      let g := { g with interval_usec := 0 }
      { g with interval_sec := g.rate }
    else
      { g with interval_usec := 1000000 / g.rate }
  { g with out := g.out ++ [Out.banner g.prefixLen g.rate g.interval_usec] }

/-- Function `main` up to the call of `runloop`: how the process ends when it ends
before the loop, otherwise the state in which `runloop` is entered.  Neither
allocation is checked by the source: `strtok` reads through the pointer `strdup`
returned and `bzero` writes `size` bytes through the pointer `malloc` returned, so a
`NULL` from `strdup`, or a `NULL` from `malloc` with a nonzero `size`, is a fault
before the loop.  The results of `sigaction`, `srandom` and `alarm` are not looked
at and a failed `setsockopt` only writes a message; what these calls cause later
(signals, random values) reaches the loop through `Cycle`. -/
def startup (h : Host) (inv : Invocation) : Except Halt Globals :=
  match parseOpts inv.opts {} with
  | Except.error c => Except.error c
  | Except.ok g =>
    if inv.operands ≠ 1 then usage
    else if inv.strdup = 0 then Except.error Halt.fault
    else
      match setMask h inv g with
      | Except.error c => Except.error c
      | Except.ok g =>
        let g := setInterval g
        let g := { g with inetfd := inv.socket }
        if g.inetfd < (0 : Int) then Except.error (Halt.exit 1)
        else
          let g := { g with data := inv.malloc }
          if g.data = 0 ∧ g.size ≠ 0 then Except.error Halt.fault
          else Except.ok { g with start := inv.time }

/-- Function `main`: how the process ends and, when `main` returns, the final state;
`none` when the list of cycles ends while the loop still runs.  `final` is the value
of `time(NULL)` read by the closing call of `stats`. -/
def main (h : Host) (inv : Invocation) (es : List Cycle) (final : Int) :
    Option (Halt × Option Globals) :=
  match startup h inv with
  | Except.error c => some (c, none)
  | Except.ok g =>
    match runloop h es g with
    | none => none
    | some (g1, _) => some (Halt.exit 0, some (stats final g1))

/-! ## The mask (lines 196-205) -/

theorem maskOf_eq (h : Host) (p : Nat) (hp : p ≤ 32) :
    maskOf h p = if p = 0 then 4294967295 else 2 ^ (32 - p) - 1 := by
  interval_cases p <;> simp [maskOf, shl1, toUInt]

/-- C2: for every prefix length `p` with `0 ≤ p ≤ 32`, `main` accepts it and the mask
it derives is all-ones (`2^32 - 1`) when `p = 0` and `2^(32-p) - 1` otherwise; prefix
length 32 gives mask 0 and prefix length 1 gives `2^31 - 1`. -/
theorem mask_of_prefix_length (h : Host) (inv : Invocation) (g : Globals) (p : Nat)
    (hp : p ≤ 32) (hinv : toUInt (inv.prefixLenStr.getD 32) = p) :
    (∃ g1, setMask h inv g = Except.ok g1 ∧ g1.prefixLen = p ∧
      g1.mask = if p = 0 then 4294967295 else 2 ^ (32 - p) - 1) ∧
    maskOf h 32 = 0 ∧ maskOf h 1 = 2147483647 := by
  have hset : setMask h inv g =
      Except.ok { g with dest := inv.dest, prefixLen := p, mask := maskOf h p } := by
    simp only [setMask, hinv]
    rw [if_neg (by omega)]
  exact ⟨⟨_, hset, rfl, maskOf_eq h p hp⟩, by simp [maskOf, shl1, toUInt],
    by simp [maskOf, shl1, toUInt]⟩

theorem mask_of_prefix_length_witness :
    (∃ g1, setMask ⟨true, 1⟩ ⟨[], 1, 4096, 10, some 24, 3, 8192, 0⟩ {} = Except.ok g1 ∧
      g1.prefixLen = 24 ∧ g1.mask = if 24 = 0 then 4294967295 else 2 ^ (32 - 24) - 1) ∧
    maskOf ⟨true, 1⟩ 32 = 0 ∧ maskOf ⟨true, 1⟩ 1 = 2147483647 :=
  mask_of_prefix_length ⟨true, 1⟩ ⟨[], 1, 4096, 10, some 24, 3, 8192, 0⟩ {} 24 (by decide) (by decide)

/-! ## Start-up (lines 172-256) -/

theorem applyOpt_frame (g g1 : Globals) (o : Opt) (ho : applyOpt g o = Except.ok g1) :
    g1.interval_sec = g.interval_sec ∧ g1.interval_usec = g.interval_usec ∧
      g1.run = g.run := by
  cases o <;> simp [applyOpt, usage] at ho <;> subst ho <;> exact ⟨rfl, rfl, rfl⟩

theorem parseOpts_frame (os : List Opt) (g g1 : Globals)
    (ho : parseOpts os g = Except.ok g1) :
    g1.interval_sec = g.interval_sec ∧ g1.interval_usec = g.interval_usec ∧
      g1.run = g.run := by
  induction os generalizing g with
  | nil =>
    simp [parseOpts] at ho
    subst ho
    exact ⟨rfl, rfl, rfl⟩
  | cons o os ih =>
    simp only [parseOpts] at ho
    cases hstep : applyOpt g o with
    | error c => simp [hstep] at ho
    | ok g2 =>
      rw [hstep] at ho
      obtain ⟨a1, a2, a3⟩ := applyOpt_frame g g2 o hstep
      obtain ⟨b1, b2, b3⟩ := ih g2 ho
      exact ⟨b1.trans a1, b2.trans a2, b3.trans a3⟩

theorem setInterval_size (g : Globals) : (setInterval g).size = g.size := by
  simp only [setInterval]
  split_ifs <;> rfl

/-- When `main` reaches `runloop`, the state is the parsed options with destination,
prefix length, mask, interval, socket, payload and start time filled in. -/
theorem startup_ok (h : Host) (inv : Invocation) (g : Globals)
    (hs : startup h inv = Except.ok g) :
    ∃ g0, parseOpts inv.opts {} = Except.ok g0 ∧ inv.operands = 1 ∧ inv.strdup ≠ 0 ∧
      toUInt (inv.prefixLenStr.getD 32) ≤ 32 ∧ 0 ≤ inv.socket ∧
      (inv.malloc ≠ 0 ∨ g0.size = 0) ∧
      g = { setInterval { g0 with dest := inv.dest,
                                  prefixLen := toUInt (inv.prefixLenStr.getD 32),
                                  mask := maskOf h (toUInt (inv.prefixLenStr.getD 32)) } with
            inetfd := inv.socket, data := inv.malloc, start := inv.time } := by
  unfold startup at hs
  cases hp : parseOpts inv.opts {} with
  | error c => simp [hp] at hs
  | ok g0 =>
    simp only [hp] at hs
    by_cases hop : inv.operands = 1
    · by_cases hdup : inv.strdup = 0
      · simp [hop, hdup] at hs
      · by_cases hpl : toUInt (inv.prefixLenStr.getD 32) ≤ 32
        · by_cases hsock : 0 ≤ inv.socket
          · by_cases hmem : inv.malloc ≠ 0 ∨ g0.size = 0
            · refine ⟨g0, rfl, hop, hdup, hpl, hsock, hmem, ?_⟩
              have hmem2 : inv.malloc = 0 → g0.size = 0 := by
                intro hz
                rcases hmem with hm | hm
                · exact absurd hz hm
                · exact hm
              have hcond : ¬ (inv.malloc = 0 ∧ ¬ g0.size = 0) := fun hc => hc.2 (hmem2 hc.1)
              simp [hop, hdup, setMask, setInterval_size, Nat.not_lt.mpr hpl,
                Int.not_lt.mpr hsock, hcond] at hs
              rw [← hs]
              simp [setInterval_size]
            · have hm1 : inv.malloc = 0 := by
                by_contra hne
                exact hmem (Or.inl hne)
              have hm2 : g0.size ≠ 0 := fun hz => hmem (Or.inr hz)
              simp [hop, hdup, setMask, setInterval_size, Nat.not_lt.mpr hpl,
                Int.not_lt.mpr hsock, hm1, hm2] at hs
          · simp [hop, hdup, setMask, Nat.not_lt.mpr hpl, Int.not_le.mp hsock] at hs
        · simp [hop, hdup, setMask, Nat.not_le.mp hpl] at hs
    · simp [hop, usage] at hs

/-- The other direction: a configuration that passes the four checks of `main` and
whose two allocations succeed reaches `runloop`. -/
theorem startup_of_checks (h : Host) (inv : Invocation) (g0 : Globals)
    (hp : parseOpts inv.opts {} = Except.ok g0) (hop : inv.operands = 1)
    (hdup : inv.strdup ≠ 0)
    (hpl : toUInt (inv.prefixLenStr.getD 32) ≤ 32) (hsock : 0 ≤ inv.socket)
    (hmem : inv.malloc ≠ 0) :
    startup h inv = Except.ok
      { setInterval { g0 with dest := inv.dest,
                              prefixLen := toUInt (inv.prefixLenStr.getD 32),
                              mask := maskOf h (toUInt (inv.prefixLenStr.getD 32)) } with
        inetfd := inv.socket, data := inv.malloc, start := inv.time } := by
  unfold startup
  simp [hp, hop, hdup, setMask, setInterval_size, Nat.not_lt.mpr hpl, Int.not_lt.mpr hsock,
    hmem]

/-- C3: when `main` reaches the loop with target rate `R`, the interval is `R` whole
seconds and 0 microseconds if `R ≤ 1`, and 0 seconds and `floor(1000000 / R)`
microseconds if `R > 1`. -/
theorem interval_of_rate (h : Host) (inv : Invocation) (g : Globals) (R : Nat)
    (hs : startup h inv = Except.ok g) (hR : g.rate = R) :
    g.interval_sec = (if R ≤ 1 then R else 0) ∧
      g.interval_usec = (if R ≤ 1 then 0 else 1000000 / R) := by
  obtain ⟨g0, hp, -, -, -, -, -, rfl⟩ := startup_ok h inv g hs
  obtain ⟨h1, h2, -⟩ := parseOpts_frame inv.opts {} g0 hp
  have h1 : g0.interval_sec = 0 := h1
  have h2 : g0.interval_usec = 0 := h2
  subst hR
  by_cases hr : g0.rate ≤ 1
  · simp [setInterval, hr]
  · simp [setInterval, hr, h1]

theorem interval_of_rate_witness :
    (startup ⟨true, 1⟩ ⟨[], 1, 4096, 10, none, 3, 8192, 0⟩ =
        Except.ok { interval_sec := 1, inetfd := 3, dest := 10, prefixLen := 32, data := 8192,
                    out := [Out.banner 32 1 0] } ∧
      ({ interval_sec := 1, inetfd := 3, dest := 10, prefixLen := 32, data := 8192,
         out := [Out.banner 32 1 0] } : Globals).interval_sec = 1 ∧
      ({ interval_sec := 1, inetfd := 3, dest := 10, prefixLen := 32, data := 8192,
         out := [Out.banner 32 1 0] } : Globals).interval_usec = 0) ∧
    (startup ⟨true, 1⟩ ⟨[Opt.r 1000], 1, 4096, 10, none, 3, 8192, 0⟩ =
        Except.ok { rate := 1000, interval_usec := 1000, inetfd := 3, dest := 10,
                    prefixLen := 32, data := 8192, out := [Out.banner 32 1000 1000] } ∧
      ({ rate := 1000, interval_usec := 1000, inetfd := 3, dest := 10,
         prefixLen := 32, data := 8192, out := [Out.banner 32 1000 1000] } : Globals).interval_sec = 0 ∧
      ({ rate := 1000, interval_usec := 1000, inetfd := 3, dest := 10,
         prefixLen := 32, data := 8192, out := [Out.banner 32 1000 1000] } : Globals).interval_usec = 1000) :=
  ⟨⟨rfl, interval_of_rate ⟨true, 1⟩ ⟨[], 1, 4096, 10, none, 3, 8192, 0⟩
      { interval_sec := 1, inetfd := 3, dest := 10, prefixLen := 32, data := 8192,
        out := [Out.banner 32 1 0] } 1 rfl rfl⟩,
   ⟨rfl, interval_of_rate ⟨true, 1⟩ ⟨[Opt.r 1000], 1, 4096, 10, none, 3, 8192, 0⟩
      { rate := 1000, interval_usec := 1000, inetfd := 3, dest := 10, prefixLen := 32,
        data := 8192, out := [Out.banner 32 1000 1000] } 1000 rfl rfl⟩⟩

/-- Counterexample to C9: with option `-r 0`, one operand `10.0.0.0/24`, a socket and
both allocations granted, `main` does not exit; it enters `runloop` with rate 0 and an
interval of 0 seconds and 0 microseconds. -/
theorem rate_zero_enters_runloop :
    ∃ g, startup ⟨true, 1⟩ ⟨[Opt.r 0], 1, 4096, 10, some 24, 3, 8192, 1414800000⟩ =
        Except.ok g ∧
      g.rate = 0 ∧ g.run = true ∧ g.interval_sec = 0 ∧ g.interval_usec = 0 :=
  ⟨_, rfl, rfl, rfl, rfl, rfl⟩

/-- C9, amended: a target rate of 0 is not rejected.  Every configuration with rate 0
that passes the checks `main` does make (known options, exactly one operand, prefix
length at most 32, a socket) and for which `strdup` and `malloc` return a block
enters `runloop`, with rate 0 and a wait interval of 0 seconds and 0 microseconds. -/
theorem rate_zero_accepted (h : Host) (inv : Invocation) (g0 : Globals)
    (hp : parseOpts inv.opts {} = Except.ok g0) (hr : g0.rate = 0)
    (hop : inv.operands = 1) (hdup : inv.strdup ≠ 0)
    (hpl : toUInt (inv.prefixLenStr.getD 32) ≤ 32)
    (hsock : 0 ≤ inv.socket) (hmem : inv.malloc ≠ 0) :
    ∃ g, startup h inv = Except.ok g ∧ g.rate = 0 ∧ g.run = true ∧
      g.interval_sec = 0 ∧ g.interval_usec = 0 := by
  obtain ⟨-, -, h3⟩ := parseOpts_frame inv.opts {} g0 hp
  have h3 : g0.run = true := h3
  refine ⟨_, startup_of_checks h inv g0 hp hop hdup hpl hsock hmem, ?_, ?_, ?_, ?_⟩ <;>
    simp [setInterval, hr, h3]

theorem rate_zero_accepted_witness :
    ∃ g, startup ⟨false, 0⟩ ⟨[Opt.d, Opt.r 0], 1, 4096, 167772160, none, 4, 8192, 5⟩ =
        Except.ok g ∧
      g.rate = 0 ∧ g.run = true ∧ g.interval_sec = 0 ∧ g.interval_usec = 0 :=
  rate_zero_accepted ⟨false, 0⟩ ⟨[Opt.d, Opt.r 0], 1, 4096, 167772160, none, 4, 8192, 5⟩
    { debug := 1, rate := 0 } rfl rfl rfl (by decide) (by decide) (by decide) (by decide)

/-- An unchecked allocation failure ends the process before the loop, whatever the
rate: with `-r 0 -s -1` and a `malloc` that returns `NULL`, `bzero` faults. -/
theorem rate_zero_alloc_fault :
    startup ⟨true, 1⟩ ⟨[Opt.r 0, Opt.s (-1)], 1, 4096, 10, none, 3, 0, 1414800000⟩ =
      Except.error Halt.fault := by
  rfl

/-! ## Statistics (lines 82-91) -/

theorem toLong_of_range (x : Int) (h1 : -9223372036854775808 ≤ x)
    (h2 : x < 9223372036854775808) : toLong x = x := by
  unfold toLong
  omega

theorem toULong_natCast (n : Nat) (h : n < 18446744073709551616) :
    toULong (n : Int) = n := by
  unfold toULong
  omega

/-- The only variable `stats` assigns is `now`. -/
theorem stats_frame (t : Int) (g : Globals) :
    ∃ l, l.packets = g.packets ∧ l.bytes = g.bytes ∧
      stats t g = { g with now := t, out := g.out ++ [Out.statsLine l] } := by
  simp only [stats]
  by_cases hpos : toLong (t - g.start) > 0
  · rw [if_pos hpos]
    exact ⟨_, rfl, rfl, rfl⟩
  · rw [if_neg hpos]
    exact ⟨_, rfl, rfl, rfl⟩

/-- C6: with `elapsed = now - start`, `stats` reports the packet count, the byte
count and `elapsed`; when `elapsed > 0` it also reports `floor(packets / elapsed)`
and `floor((bytes * 8) / elapsed)` with the exact product `bytes * 8`, and when
`elapsed ≤ 0` it reports no average, so no division takes place. -/
theorem stats_report (t : Int) (g : Globals)
    (hp : g.packets < 4294967296) (hb : g.bytes < 4294967296)
    (hlo : -9223372036854775808 ≤ t - g.start) (hhi : t - g.start < 9223372036854775808) :
    (0 < t - g.start →
      (stats t g).out = g.out ++ [Out.statsLine
        { packets := g.packets, bytes := g.bytes, seconds := (t - g.start).toNat,
          average := some (g.packets / (t - g.start).toNat,
            (g.bytes * 8) / (t - g.start).toNat) }]) ∧
    (t - g.start ≤ 0 →
      (stats t g).out = g.out ++ [Out.statsLine
        { packets := g.packets, bytes := g.bytes, seconds := toULong (t - g.start),
          average := none }]) := by
  have hel : toLong (t - g.start) = t - g.start := toLong_of_range _ hlo hhi
  constructor
  · intro hpos
    obtain ⟨n, hn⟩ := Int.eq_ofNat_of_zero_le (Int.le_of_lt hpos)
    have hn63 : n < 9223372036854775808 := by omega
    have h8 : toLong ((g.bytes : Int) * 8) = ((g.bytes * 8 : Nat) : Int) := by
      rw [toLong_of_range] <;> omega
    have hq1 : g.packets / n < 18446744073709551616 :=
      lt_of_le_of_lt (Nat.div_le_self _ _) (by omega)
    have hq2 : g.bytes * 8 / n < 18446744073709551616 :=
      lt_of_le_of_lt (Nat.div_le_self _ _) (by omega)
    have hposn : (0 : Int) < (n : Int) := hn ▸ hpos
    rw [hn] at hel
    simp only [stats, hn, hel, h8, gt_iff_lt, hposn, if_true, Int.toNat_ofNat,
      ← Int.ofNat_tdiv]
    rw [toULong_natCast n (by omega), toULong_natCast _ hq1, toULong_natCast _ hq2]
  · intro hle
    simp only [stats, hel, gt_iff_lt, Int.not_lt.mpr hle, if_false]

theorem stats_report_witness :
    (stats 1414800010 { packets := 100, bytes := 147200, start := 1414800000 }).out =
      [Out.statsLine { packets := 100, bytes := 147200, seconds := 10,
                       average := some (10, 117760) }] ∧
    (stats 7 { packets := 3, bytes := 300, start := 7 }).out =
      [Out.statsLine { packets := 3, bytes := 300, seconds := 0, average := none }] :=
  ⟨(stats_report 1414800010 { packets := 100, bytes := 147200, start := 1414800000 }
      (by decide) (by decide) (by decide) (by decide)).1 (by decide),
   (stats_report 7 { packets := 3, bytes := 300, start := 7 }
      (by decide) (by decide) (by decide) (by decide)).2 (by decide)⟩

/-! ## The wait and the signal flags (lines 74-80, 101-112) -/

/-- Delivering a list of signals sets the flags of the signals in the list and
changes nothing else. -/
theorem deliver_eq (sigs : List Signal) (g : Globals) :
    sigs.foldl (fun acc s => signal_handler s acc) g =
      { g with sigterm := g.sigterm || sigs.contains Signal.SIGTERM,
               sigint := g.sigint || sigs.contains Signal.SIGINT,
               sighup := g.sighup || sigs.contains Signal.SIGHUP,
               sigalrm := g.sigalrm || sigs.contains Signal.SIGALRM,
               siginfo := g.siginfo || sigs.contains Signal.SIGINFO } := by
  induction sigs generalizing g with
  | nil => simp
  | cons s sigs ih =>
    rw [List.foldl_cons, ih]
    cases s <;> simp [signal_handler, Bool.or_assoc]

theorem waitStep_packets (e : Cycle) (g : Globals) : (waitStep e g).packets = g.packets := by
  unfold waitStep; rw [deliver_eq]; split_ifs <;> rfl

theorem waitStep_bytes (e : Cycle) (g : Globals) : (waitStep e g).bytes = g.bytes := by
  unfold waitStep; rw [deliver_eq]; split_ifs <;> rfl

theorem waitStep_packetLimit (e : Cycle) (g : Globals) :
    (waitStep e g).packetLimit = g.packetLimit := by
  unfold waitStep; rw [deliver_eq]; split_ifs <;> rfl

theorem waitStep_start (e : Cycle) (g : Globals) : (waitStep e g).start = g.start := by
  unfold waitStep; rw [deliver_eq]; split_ifs <;> rfl

theorem waitStep_size (e : Cycle) (g : Globals) : (waitStep e g).size = g.size := by
  unfold waitStep; rw [deliver_eq]; split_ifs <;> rfl

theorem waitStep_sends (e : Cycle) (g : Globals) : sends (waitStep e g) = sends g := by
  unfold waitStep; rw [deliver_eq]; split_ifs <;> simp [sends]

theorem waitStep_siginfo (e : Cycle) (g : Globals) :
    (waitStep e g).siginfo = (g.siginfo || e.signals.contains Signal.SIGINFO) := by
  unfold waitStep; rw [deliver_eq]; split_ifs <;> rfl

theorem waitStep_run (e : Cycle) (g : Globals) :
    (waitStep e g).run = (g.run && (e.select != -1 || e.eintr)) := by
  unfold waitStep; rw [deliver_eq]; split_ifs <;> simp_all

/-! ## The loop body after the wait (lines 114-157) -/

theorem limitStep_packets (g : Globals) : (limitStep g).packets = g.packets := by
  simp only [limitStep]; split_ifs <;> rfl

theorem limitStep_bytes (g : Globals) : (limitStep g).bytes = g.bytes := by
  simp only [limitStep]; split_ifs <;> rfl

theorem limitStep_start (g : Globals) : (limitStep g).start = g.start := by
  simp only [limitStep]; split_ifs <;> rfl

theorem limitStep_siginfo (g : Globals) : (limitStep g).siginfo = g.siginfo := by
  simp only [limitStep]; split_ifs <;> rfl

theorem limitStep_destaddr (g : Globals) : (limitStep g).destaddr = g.destaddr := by
  simp only [limitStep]; split_ifs <;> rfl

theorem limitStep_out (g : Globals) : (limitStep g).out = g.out := by
  simp only [limitStep]; split_ifs <;> rfl

theorem limitStep_sends (g : Globals) : sends (limitStep g) = sends g := by
  simp [sends, limitStep_out]

theorem limitStep_packetLimit (g : Globals) :
    (limitStep g).packetLimit = g.packetLimit - 1 := by
  simp only [limitStep]; split_ifs with h1 h2 <;> simp_all

theorem limitStep_run (g : Globals) :
    (limitStep g).run = (g.run && decide (g.packetLimit ≠ 1)) := by
  simp only [limitStep]
  split_ifs with h1 h2
  · have h3 : g.packetLimit = 1 := by omega
    simp [h3]
  · have h3 : g.packetLimit ≠ 1 := by omega
    simp [h3]
  · have h3 : g.packetLimit ≠ 1 := by simp at h1; omega
    simp [h3]

theorem sendStep_packetLimit (h : Host) (e : Cycle) (g : Globals) :
    (sendStep h e g).packetLimit = g.packetLimit := by
  simp only [sendStep]; split_ifs <;> rfl

theorem sendStep_run (h : Host) (e : Cycle) (g : Globals) :
    (sendStep h e g).run = g.run := by
  simp only [sendStep]; split_ifs <;> rfl

theorem sendStep_start (h : Host) (e : Cycle) (g : Globals) :
    (sendStep h e g).start = g.start := by
  simp only [sendStep]; split_ifs <;> rfl

theorem sendStep_siginfo (h : Host) (e : Cycle) (g : Globals) :
    (sendStep h e g).siginfo = g.siginfo := by
  simp only [sendStep]; split_ifs <;> rfl

theorem sendStep_destaddr (h : Host) (e : Cycle) (g : Globals) :
    (sendStep h e g).destaddr = randomDest h e g := by
  simp only [sendStep]; split_ifs <;> rfl

theorem sendStep_sends (h : Host) (e : Cycle) (g : Globals) :
    sends (sendStep h e g) = sends g + 1 := by
  simp only [sendStep]; split_ifs <;> simp [sends, List.countP_append, List.countP_cons]

theorem sendStep_mem (h : Host) (e : Cycle) (g : Globals) :
    Out.sendto (randomDest h e g) g.size ∈ (sendStep h e g).out := by
  simp only [sendStep]; split_ifs <;> simp

theorem sendStep_packets (h : Host) (e : Cycle) (g : Globals) :
    (sendStep h e g).packets =
      if e.sendto = -1 then g.packets else (g.packets + 1) % 4294967296 := by
  simp only [sendStep]; split_ifs <;> rfl

theorem sendStep_bytes (h : Host) (e : Cycle) (g : Globals) :
    (sendStep h e g).bytes =
      if e.sendto = -1 then g.bytes else toUInt ((g.bytes : Int) + e.sendto) := by
  simp only [sendStep]; split_ifs <;> rfl

theorem hupStep_eq (g : Globals) : hupStep g = { g with sighup := false } := by
  unfold hupStep
  split_ifs with h1
  · rfl
  · cases g
    simp_all

theorem reportStep_eq (e : Cycle) (g : Globals) :
    ∃ t l, reportStep e g = { g with now := t, out := g.out ++ l, siginfo := false } ∧
      l.countP (fun o => match o with
        | Out.sendto _ _ => true
        | _ => false) = 0 := by
  unfold reportStep
  split_ifs with h1
  · obtain ⟨l, -, -, hl⟩ := stats_frame e.time g
    exact ⟨e.time, [Out.statsLine l], by rw [hl], by simp⟩
  · refine ⟨g.now, [], ?_, by simp⟩
    cases g
    simp_all

/-- With no alarm, `SIGTERM` or `SIGINT` flag set at the check, the cycle goes on to
the report, the send and the limit. -/
theorem checkStep_go (h : Host) (e : Cycle) (g : Globals) (h0 : g.sigalrm = false)
    (h1 : g.sigterm = false) (h2 : g.sigint = false) :
    checkStep h e g = limitStep (sendStep h e (reportStep e (hupStep g))) := by
  simp [checkStep, h0, hupStep_eq, h1, h2]

/-- With the alarm, `SIGTERM` or `SIGINT` flag set at the check, the cycle clears
`run` and touches neither the counters nor the limit, and sends nothing. -/
theorem checkStep_stop (h : Host) (e : Cycle) (g : Globals)
    (hflag : g.sigalrm = true ∨ g.sigterm = true ∨ g.sigint = true) :
    (checkStep h e g).run = false ∧ (checkStep h e g).packets = g.packets ∧
      (checkStep h e g).bytes = g.bytes ∧ (checkStep h e g).packetLimit = g.packetLimit ∧
      (checkStep h e g).start = g.start ∧ sends (checkStep h e g) = sends g ∧
      (checkStep h e g).siginfo = g.siginfo := by
  simp only [checkStep, hupStep_eq]
  by_cases h0 : g.sigalrm = true
  · simp [h0, sends]
  · by_cases h1 : g.sigterm = true
    · by_cases hd : g.debug = 0 <;> simp [h0, h1, hd, sends]
    · have h2 : g.sigint = true := by tauto
      by_cases hd : g.debug = 0 <;> simp [h0, h1, h2, hd, sends]

/-- What a cycle that reaches the send leaves behind, in terms of the state at the
flag check. -/
theorem checkStep_go_fields (h : Host) (e : Cycle) (g : Globals) (h0 : g.sigalrm = false)
    (h1 : g.sigterm = false) (h2 : g.sigint = false) :
    (checkStep h e g).packets =
        (if e.sendto = -1 then g.packets else (g.packets + 1) % 4294967296) ∧
      (checkStep h e g).bytes =
        (if e.sendto = -1 then g.bytes else toUInt ((g.bytes : Int) + e.sendto)) ∧
      (checkStep h e g).packetLimit = g.packetLimit - 1 ∧
      (checkStep h e g).run = (g.run && decide (g.packetLimit ≠ 1)) ∧
      (checkStep h e g).start = g.start ∧
      sends (checkStep h e g) = sends g + 1 ∧
      (checkStep h e g).siginfo = false ∧
      Out.sendto (checkStep h e g).destaddr g.size ∈ (checkStep h e g).out := by
  rw [checkStep_go h e g h0 h1 h2, hupStep_eq]
  obtain ⟨t, l, hl, hcount⟩ := reportStep_eq e { g with sighup := false }
  rw [hl]
  refine ⟨?_, ?_, ?_, ?_, ?_, ?_, ?_, ?_⟩
  · rw [limitStep_packets, sendStep_packets]
  · rw [limitStep_bytes, sendStep_bytes]
  · rw [limitStep_packetLimit, sendStep_packetLimit]
  · rw [limitStep_run, sendStep_run, sendStep_packetLimit]
  · rw [limitStep_start, sendStep_start]
  · rw [limitStep_sends, sendStep_sends]
    simp only [sends, List.countP_append, hcount, Nat.add_zero]
  · rw [limitStep_siginfo, sendStep_siginfo]
  · rw [limitStep_out, limitStep_destaddr, sendStep_destaddr]
    exact sendStep_mem h e _

theorem runloop_stopped (h : Host) (es : List Cycle) (g : Globals) (hrun : g.run = false) :
    runloop h es g = some (g, es) := by
  cases es <;> simp [runloop, hrun]

theorem runloop_running (h : Host) (e : Cycle) (es : List Cycle) (g : Globals)
    (hrun : g.run = true) : runloop h (e :: es) g = runloop h es (cycle h e g) := by
  simp [runloop, hrun]

/-- C5: if the alarm flag, the `SIGTERM` flag or the `SIGINT` flag is set when the
flags are checked after the wait, then, whatever the other flags and however
`select` returned, the cycle clears `run`, leaves `packets`, `bytes` and
`packetLimit` unchanged and makes no `sendto` call, and the loop returns after this
cycle without using any further entry of the environment. -/
theorem stop_flag_ends_loop (h : Host) (e : Cycle) (es : List Cycle) (g : Globals)
    (hflag : (waitStep e g).sigalrm = true ∨ (waitStep e g).sigterm = true ∨
      (waitStep e g).sigint = true) :
    (cycle h e g).run = false ∧ (cycle h e g).packets = g.packets ∧
      (cycle h e g).bytes = g.bytes ∧ (cycle h e g).packetLimit = g.packetLimit ∧
      sends (cycle h e g) = sends g ∧
      runloop h es (cycle h e g) = some (cycle h e g, es) ∧
      (g.run = true → runloop h (e :: es) g = some (cycle h e g, es)) := by
  obtain ⟨a1, a2, a3, a4, -, a6, -⟩ := checkStep_stop h e (waitStep e g) hflag
  have hstop : runloop h es (cycle h e g) = some (cycle h e g, es) :=
    runloop_stopped h es _ a1
  refine ⟨a1, ?_, ?_, ?_, ?_, hstop, ?_⟩
  · exact a2.trans (waitStep_packets e g)
  · exact a3.trans (waitStep_bytes e g)
  · exact a4.trans (waitStep_packetLimit e g)
  · exact a6.trans (waitStep_sends e g)
  · intro hrun
    rw [runloop_running h e es g hrun]
    exact hstop

theorem stop_flag_ends_loop_witness :
    (cycle ⟨true, 1⟩ ⟨[Signal.SIGINT], -1, true, 0, 7, 100⟩
        { packets := 3, bytes := 300, packetLimit := 2 }).run = false ∧
      (cycle ⟨true, 1⟩ ⟨[Signal.SIGINT], -1, true, 0, 7, 100⟩
        { packets := 3, bytes := 300, packetLimit := 2 }).packets = 3 ∧
      (cycle ⟨true, 1⟩ ⟨[Signal.SIGINT], -1, true, 0, 7, 100⟩
        { packets := 3, bytes := 300, packetLimit := 2 }).bytes = 300 ∧
      (cycle ⟨true, 1⟩ ⟨[Signal.SIGINT], -1, true, 0, 7, 100⟩
        { packets := 3, bytes := 300, packetLimit := 2 }).packetLimit = 2 ∧
      sends (cycle ⟨true, 1⟩ ⟨[Signal.SIGINT], -1, true, 0, 7, 100⟩
        { packets := 3, bytes := 300, packetLimit := 2 }) = 0 := by
  obtain ⟨a1, a2, a3, a4, a5, -, -⟩ :=
    stop_flag_ends_loop ⟨true, 1⟩ ⟨[Signal.SIGINT], -1, true, 0, 7, 100⟩ []
      { packets := 3, bytes := 300, packetLimit := 2 } (by decide)
  exact ⟨a1, a2, a3, a4, a5⟩

/-! ## Report requests (lines 131-134) -/

theorem waitStep_siginfo_set (e : Cycle) (g : Globals) (b : Bool) :
    waitStep e { g with siginfo := b } =
      { waitStep e g with siginfo := b || e.signals.contains Signal.SIGINFO } := by
  unfold waitStep
  rw [deliver_eq, deliver_eq]
  split_ifs <;> rfl

theorem checkStep_siginfo_frame (h : Host) (e : Cycle) (g : Globals) (b : Bool) :
    (checkStep h e { g with siginfo := b }).packets = (checkStep h e g).packets ∧
      (checkStep h e { g with siginfo := b }).bytes = (checkStep h e g).bytes ∧
      (checkStep h e { g with siginfo := b }).packetLimit = (checkStep h e g).packetLimit ∧
      (checkStep h e { g with siginfo := b }).run = (checkStep h e g).run := by
  by_cases hflag : g.sigalrm = true ∨ g.sigterm = true ∨ g.sigint = true
  · obtain ⟨a1, a2, a3, a4, -⟩ := checkStep_stop h e { g with siginfo := b } hflag
    obtain ⟨b1, b2, b3, b4, -⟩ := checkStep_stop h e g hflag
    exact ⟨a2.trans b2.symm, a3.trans b3.symm, a4.trans b4.symm, a1.trans b1.symm⟩
  · have h0 : g.sigalrm = false := by
      cases hv : g.sigalrm <;> simp_all
    have h1 : g.sigterm = false := by
      cases hv : g.sigterm <;> simp_all
    have h2 : g.sigint = false := by
      cases hv : g.sigint <;> simp_all
    obtain ⟨a1, a2, a3, a4, -⟩ := checkStep_go_fields h e { g with siginfo := b } h0 h1 h2
    obtain ⟨b1, b2, b3, b4, -⟩ := checkStep_go_fields h e g h0 h1 h2
    exact ⟨a1.trans b1.symm, a2.trans b2.symm, a3.trans b3.symm, a4.trans b4.symm⟩

/-- Counterexample to C7: with the report flag set and a `SIGTERM` arriving during
the wait, the cycle takes the `continue` of the `SIGTERM` check and ends with the
report flag still set. -/
theorem report_flag_survives_stop :
    (cycle ⟨true, 1⟩ ⟨[Signal.SIGTERM], -1, true, 1414800001, 7, 100⟩
      { siginfo := true, start := 1414800000 }).siginfo = true := by
  decide

/-- C7, amended: `stats` leaves `packets`, `bytes`, `start`, `packetLimit` and `run`
unchanged, and two calls in a row report the same counts; a cycle with the report
flag set ends with the same `packets`, `bytes`, `packetLimit` and `run` as the same
cycle with the flag clear; the report flag is cleared afterwards when no alarm,
`SIGTERM` or `SIGINT` flag is set at the check of that cycle; and a cycle stopped by
one of those flags leaves the report flag as it was at the check, so a set flag
stays set. -/
theorem report_request_frame (h : Host) (e : Cycle) (g : Globals) (t t2 : Int) :
    ((stats t g).packets = g.packets ∧ (stats t g).bytes = g.bytes ∧
      (stats t g).start = g.start ∧ (stats t g).packetLimit = g.packetLimit ∧
      (stats t g).run = g.run) ∧
    (∃ l1 l2, (stats t2 (stats t g)).out = g.out ++ [Out.statsLine l1, Out.statsLine l2] ∧
      l1.packets = g.packets ∧ l2.packets = g.packets ∧
      l1.bytes = g.bytes ∧ l2.bytes = g.bytes) ∧
    ((cycle h e { g with siginfo := true }).packets =
        (cycle h e { g with siginfo := false }).packets ∧
      (cycle h e { g with siginfo := true }).bytes =
        (cycle h e { g with siginfo := false }).bytes ∧
      (cycle h e { g with siginfo := true }).packetLimit =
        (cycle h e { g with siginfo := false }).packetLimit ∧
      (cycle h e { g with siginfo := true }).run =
        (cycle h e { g with siginfo := false }).run) ∧
    ((waitStep e g).sigalrm = false → (waitStep e g).sigterm = false →
      (waitStep e g).sigint = false →
      (cycle h e { g with siginfo := true }).siginfo = false) ∧
    ((waitStep e g).sigalrm = true ∨ (waitStep e g).sigterm = true ∨
        (waitStep e g).sigint = true →
      (cycle h e g).siginfo = (waitStep e g).siginfo ∧
      (cycle h e { g with siginfo := true }).siginfo = true) := by
  obtain ⟨l1, p1, q1, hl1⟩ := stats_frame t g
  obtain ⟨l2, p2, q2, hl2⟩ := stats_frame t2 (stats t g)
  refine ⟨?_, ⟨l1, l2, ?_, p1, ?_, q1, ?_⟩, ?_, ?_, ?_⟩
  · rw [hl1]
    exact ⟨rfl, rfl, rfl, rfl, rfl⟩
  · rw [hl2, hl1]
    simp
  · rw [p2, hl1]
  · rw [q2, hl1]
  · simp only [cycle, waitStep_siginfo_set]
    obtain ⟨a1, a2, a3, a4⟩ := checkStep_siginfo_frame h e (waitStep e g)
      (true || e.signals.contains Signal.SIGINFO)
    obtain ⟨b1, b2, b3, b4⟩ := checkStep_siginfo_frame h e (waitStep e g)
      (false || e.signals.contains Signal.SIGINFO)
    exact ⟨a1.trans b1.symm, a2.trans b2.symm, a3.trans b3.symm, a4.trans b4.symm⟩
  · intro h0 h1 h2
    simp only [cycle, waitStep_siginfo_set]
    exact (checkStep_go_fields h e
      { waitStep e g with siginfo := true || e.signals.contains Signal.SIGINFO }
      h0 h1 h2).2.2.2.2.2.2.1
  · intro hflag
    constructor
    · exact (checkStep_stop h e (waitStep e g) hflag).2.2.2.2.2.2
    · simp only [cycle, waitStep_siginfo_set]
      exact (checkStep_stop h e
        { waitStep e g with siginfo := true || e.signals.contains Signal.SIGINFO }
        hflag).2.2.2.2.2.2

theorem report_request_frame_witness :
    (cycle ⟨true, 1⟩ ⟨[Signal.SIGHUP], 0, false, 1414800009, 7, 100⟩
      { { packets := 3, bytes := 300, start := 1414800000 : Globals } with
        siginfo := true }).siginfo = false ∧
    (cycle ⟨true, 1⟩ ⟨[Signal.SIGALRM], -1, true, 1414800009, 7, 100⟩
      { { packets := 3, bytes := 300, start := 1414800000 : Globals } with
        siginfo := true }).siginfo = true ∧
    (cycle ⟨true, 1⟩ ⟨[Signal.SIGINFO, Signal.SIGINT], -1, true, 1414800009, 7, 100⟩
      { packets := 3, bytes := 300, start := 1414800000 }).siginfo =
      (waitStep ⟨[Signal.SIGINFO, Signal.SIGINT], -1, true, 1414800009, 7, 100⟩
        { packets := 3, bytes := 300, start := 1414800000 }).siginfo :=
  ⟨(report_request_frame ⟨true, 1⟩ ⟨[Signal.SIGHUP], 0, false, 1414800009, 7, 100⟩
      { packets := 3, bytes := 300, start := 1414800000 } 0 0).2.2.2.1
      (by decide) (by decide) (by decide),
   ((report_request_frame ⟨true, 1⟩ ⟨[Signal.SIGALRM], -1, true, 1414800009, 7, 100⟩
      { packets := 3, bytes := 300, start := 1414800000 } 0 0).2.2.2.2
      (by decide)).2,
   ((report_request_frame ⟨true, 1⟩
      ⟨[Signal.SIGINFO, Signal.SIGINT], -1, true, 1414800009, 7, 100⟩
      { packets := 3, bytes := 300, start := 1414800000 } 0 0).2.2.2.2
      (by decide)).1⟩

/-! ## The send and the counters (lines 142-152) -/

/-- The effect of any cycle on the counters and the start time: either the counters
are untouched, or `sendto` did not return -1 and they are advanced modulo `2^32`. -/
theorem cycle_counters (h : Host) (e : Cycle) (g : Globals) :
    (cycle h e g).start = g.start ∧
      (((cycle h e g).packets = g.packets ∧ (cycle h e g).bytes = g.bytes) ∨
        (e.sendto ≠ -1 ∧ (cycle h e g).packets = (g.packets + 1) % 4294967296 ∧
          (cycle h e g).bytes = toUInt ((g.bytes : Int) + e.sendto))) := by
  unfold cycle
  by_cases hflag : (waitStep e g).sigalrm = true ∨ (waitStep e g).sigterm = true ∨
      (waitStep e g).sigint = true
  · obtain ⟨-, a2, a3, -, a5, -⟩ := checkStep_stop h e (waitStep e g) hflag
    exact ⟨a5.trans (waitStep_start e g),
      Or.inl ⟨a2.trans (waitStep_packets e g), a3.trans (waitStep_bytes e g)⟩⟩
  · have h0 : (waitStep e g).sigalrm = false := by
      cases hv : (waitStep e g).sigalrm <;> simp_all
    have h1 : (waitStep e g).sigterm = false := by
      cases hv : (waitStep e g).sigterm <;> simp_all
    have h2 : (waitStep e g).sigint = false := by
      cases hv : (waitStep e g).sigint <;> simp_all
    obtain ⟨a1, a2, -, -, a5, -⟩ := checkStep_go_fields h e (waitStep e g) h0 h1 h2
    rw [waitStep_packets] at a1
    rw [waitStep_bytes] at a2
    refine ⟨a5.trans (waitStep_start e g), ?_⟩
    by_cases hs : e.sendto = -1
    · left
      rw [a1, a2]
      simp [hs]
    · right
      rw [a1, a2]
      simp [hs]

/-- Counterexample to C8: after 2917776 packets of 1472 bytes the byte count is
`4294966272`; one more `sendto` that returns 1472 leaves `bytes = 448`, which is not
`4294966272 + 1472`. -/
theorem bytes_wrap_on_send :
    (cycle ⟨true, 1⟩ ⟨[], 0, false, 0, 7, 1472⟩
      { packets := 2917776, bytes := 4294966272, dest := 10, mask := 255 }).bytes = 448 ∧
    (448 : Int) ≠ 4294966272 + 1472 := by
  decide

/-- C8, amended: a cycle that reaches the send step makes exactly one `sendto` call,
of `size` bytes.  `run` afterwards depends only on the earlier `run`, the result of
`select` and the packet limit, never on the result of `sendto`.  If `sendto` returns
-1, `packets` and `bytes` are unchanged.  If it returns any other value `b`, `packets`
becomes `(packets + 1) mod 2^32` and `bytes` becomes `(bytes + b) mod 2^32`: an
increase by exactly 1 and by exactly `b` whenever `packets + 1` and `bytes + b` lie
in the range from 0 to `2^32 - 1`. -/
theorem send_result_handling (h : Host) (e : Cycle) (g : Globals)
    (h0 : (waitStep e g).sigalrm = false) (h1 : (waitStep e g).sigterm = false)
    (h2 : (waitStep e g).sigint = false) :
    sends (cycle h e g) = sends g + 1 ∧
    Out.sendto (cycle h e g).destaddr g.size ∈ (cycle h e g).out ∧
    (cycle h e g).run = (g.run && (e.select != -1 || e.eintr) && decide (g.packetLimit ≠ 1)) ∧
    (e.sendto = -1 → (cycle h e g).packets = g.packets ∧ (cycle h e g).bytes = g.bytes) ∧
    (e.sendto ≠ -1 → (cycle h e g).packets = (g.packets + 1) % 4294967296 ∧
      (cycle h e g).bytes = toUInt ((g.bytes : Int) + e.sendto)) ∧
    (e.sendto ≠ -1 → 0 ≤ (g.bytes : Int) + e.sendto → g.packets + 1 < 4294967296 →
      (g.bytes : Int) + e.sendto < 4294967296 →
      (cycle h e g).packets = g.packets + 1 ∧
        ((cycle h e g).bytes : Int) = (g.bytes : Int) + e.sendto) := by
  obtain ⟨a1, a2, -, a4, -, a6, -, a8⟩ := checkStep_go_fields h e (waitStep e g) h0 h1 h2
  rw [waitStep_packets] at a1
  rw [waitStep_bytes] at a2
  rw [waitStep_run, waitStep_packetLimit] at a4
  rw [waitStep_sends] at a6
  rw [waitStep_size] at a8
  refine ⟨a6, a8, a4, ?_, ?_, ?_⟩
  · intro hs
    simp only [cycle, a1, a2, hs, if_true, and_self]
  · intro hs
    simp only [cycle, a1, a2, hs, if_false, and_self]
  · intro hs hb hp hby
    simp only [cycle, a1, a2, hs, if_false]
    constructor
    · exact Nat.mod_eq_of_lt hp
    · unfold toUInt
      omega

theorem send_result_handling_witness :
    sends (cycle ⟨true, 1⟩ ⟨[Signal.SIGINFO], 0, false, 1414800002, 7, 40⟩
      { packets := 2, bytes := 200, size := 100, start := 1414800000 }) = 0 + 1 ∧
    (cycle ⟨true, 1⟩ ⟨[Signal.SIGINFO], 0, false, 1414800002, 7, 40⟩
      { packets := 2, bytes := 200, size := 100, start := 1414800000 }).packets = 2 + 1 ∧
    ((cycle ⟨true, 1⟩ ⟨[Signal.SIGINFO], 0, false, 1414800002, 7, 40⟩
      { packets := 2, bytes := 200, size := 100, start := 1414800000 }).bytes : Int) =
        (200 : Nat) + 40 := by
  obtain ⟨a1, -, -, -, -, a6⟩ :=
    send_result_handling ⟨true, 1⟩ ⟨[Signal.SIGINFO], 0, false, 1414800002, 7, 40⟩
      { packets := 2, bytes := 200, size := 100, start := 1414800000 }
      (by decide) (by decide) (by decide)
  exact ⟨a1, (a6 (by decide) (by decide) (by decide) (by decide)).1,
    (a6 (by decide) (by decide) (by decide) (by decide)).2⟩

/-- Counterexample to C10: after `2^32 - 1` packets of 1472 bytes the counters hold
`packets = 4294967295` and `bytes = 4294965824`; one more `sendto` that returns 1472
leaves `packets = 0` and `bytes = 0`, both smaller than before the cycle. -/
theorem counters_wrap_around :
    (cycle ⟨true, 1⟩ ⟨[], 0, false, 0, 7, 1472⟩
      { packets := 4294967295, bytes := 4294965824, dest := 10, mask := 255 }).packets = 0 ∧
    (cycle ⟨true, 1⟩ ⟨[], 0, false, 0, 7, 1472⟩
      { packets := 4294967295, bytes := 4294965824, dest := 10, mask := 255 }).bytes = 0 ∧
    ¬ (4294967295 ≤ 0) ∧ ¬ (4294965824 ≤ 0) := by
  decide

/-- C10, amended: every cycle of `runloop` leaves the start timestamp unchanged and
either leaves the packet and byte counts unchanged or replaces them by
`(packets + 1) mod 2^32` and `(bytes + b) mod 2^32`, where `b` is the value `sendto`
returned.  With `b ≥ -1`, the range of what `sendto` returns, the stored counts are
therefore greater than or equal to their values before the cycle whenever
`packets + 1` and `bytes + b` stay below `2^32`; at `2^32` they wrap around. -/
theorem counters_monotone_up_to_wrap (h : Host) (e : Cycle) (g : Globals) :
    (cycle h e g).start = g.start ∧
    (((cycle h e g).packets = g.packets ∧ (cycle h e g).bytes = g.bytes) ∨
      (e.sendto ≠ -1 ∧ (cycle h e g).packets = (g.packets + 1) % 4294967296 ∧
        (cycle h e g).bytes = toUInt ((g.bytes : Int) + e.sendto))) ∧
    (g.packets + 1 < 4294967296 → g.packets ≤ (cycle h e g).packets) ∧
    (-1 ≤ e.sendto → (g.bytes : Int) + e.sendto < 4294967296 →
      g.bytes ≤ (cycle h e g).bytes) := by
  obtain ⟨a1, a2⟩ := cycle_counters h e g
  refine ⟨a1, a2, ?_, ?_⟩
  · intro hp
    rcases a2 with ⟨b1, -⟩ | ⟨-, b1, -⟩
    · rw [b1]
    · rw [b1, Nat.mod_eq_of_lt hp]
      exact Nat.le_succ _
  · intro hlo hhi
    rcases a2 with ⟨-, b2⟩ | ⟨hs, -, b2⟩
    · rw [b2]
    · rw [b2]
      unfold toUInt
      omega

theorem counters_monotone_up_to_wrap_witness :
    5 ≤ (cycle ⟨true, 1⟩ ⟨[], 0, false, 0, 7, 100⟩ { packets := 5, bytes := 500 }).packets ∧
    500 ≤ (cycle ⟨true, 1⟩ ⟨[], 0, false, 0, 7, 100⟩ { packets := 5, bytes := 500 }).bytes :=
  ⟨(counters_monotone_up_to_wrap ⟨true, 1⟩ ⟨[], 0, false, 0, 7, 100⟩
      { packets := 5, bytes := 500 }).2.2.1 (by decide),
   (counters_monotone_up_to_wrap ⟨true, 1⟩ ⟨[], 0, false, 0, 7, 100⟩
      { packets := 5, bytes := 500 }).2.2.2 (by decide) (by decide)⟩

/-! ## The packet-count limit (lines 99-159) -/

theorem testBit_255 (i : Nat) : Nat.testBit 255 i = decide (i < 8) := by
  have h255 : (255 : Nat) = 2 ^ 8 - 1 := by norm_num
  rw [h255, Nat.testBit_two_pow_sub_one]

theorem testBit_65280 (i : Nat) :
    Nat.testBit 65280 i = (decide (8 ≤ i) && decide (i < 16)) := by
  have hc : (65280 : Nat) = (2 ^ 8 - 1) <<< 8 := by decide
  rw [hc, Nat.testBit_shiftLeft, Nat.testBit_two_pow_sub_one]
  by_cases h : 8 ≤ i <;> simp [h]
  omega

theorem testBit_ones32 (i : Nat) : Nat.testBit 4294967295 i = decide (i < 32) := by
  have hc : (4294967295 : Nat) = 2 ^ 32 - 1 := by norm_num
  rw [hc, Nat.testBit_two_pow_sub_one]

theorem testBit_of_lt32 (x i : Nat) (hx : x < 4294967296) (hi : ¬ i < 32) :
    x.testBit i = false := by
  apply Nat.testBit_lt_two_pow
  calc x < 2 ^ 32 := by simpa using hx
    _ ≤ 2 ^ i := Nat.pow_le_pow_right (by decide) (by omega)

/-- Byte reversal as a permutation of the low 32 bits. -/
theorem testBit_bswap32 (x i : Nat) :
    (bswap32 x).testBit i = (decide (i < 32) && x.testBit (bitSwap i)) := by
  simp only [bswap32, Nat.testBit_or, Nat.testBit_and, Nat.testBit_shiftLeft,
    Nat.testBit_shiftRight, testBit_255, testBit_65280, bitSwap]
  have e1 : 24 + i = i + 24 := by omega
  have e2 : 8 + i = i + 8 := by omega
  rw [e1, e2]
  by_cases h1 : i < 8
  · have f1 : ¬ (24 ≤ i) := by omega
    have f2 : ¬ (8 ≤ i) := by omega
    have f3 : i < 32 := by omega
    simp [h1, f1, f2, f3]
  · by_cases h2 : i < 16
    · have f1 : ¬ (24 ≤ i) := by omega
      have f2 : 8 ≤ i := by omega
      have f3 : i < 32 := by omega
      have f4 : ¬ (8 ≤ i - 8) := by omega
      simp [h1, h2, f1, f2, f3, f4]
    · by_cases h3 : i < 24
      · have f1 : ¬ (24 ≤ i) := by omega
        have f2 : 8 ≤ i := by omega
        have f3 : i < 32 := by omega
        have f4 : 8 ≤ i - 8 := by omega
        have f5 : i - 8 < 16 := by omega
        simp [h1, h2, h3, f1, f2, f3, f4, f5]
      · by_cases h4 : i < 32
        · have f1 : 24 ≤ i := by omega
          have f2 : 8 ≤ i := by omega
          have f4 : 8 ≤ i - 8 := by omega
          have f5 : ¬ (i - 8 < 16) := by omega
          have f6 : i - 24 < 8 := by omega
          simp [h1, h2, h3, h4, f1, f2, f4, f5, f6]
        · have f1 : 24 ≤ i := by omega
          have f2 : 8 ≤ i := by omega
          have f4 : 8 ≤ i - 8 := by omega
          have f5 : ¬ (i - 8 < 16) := by omega
          have f6 : ¬ (i - 24 < 8) := by omega
          simp [h1, h2, h3, h4, f1, f2, f4, f5, f6]

theorem bitSwap_lt (i : Nat) (h : i < 32) : bitSwap i < 32 := by
  unfold bitSwap; split_ifs <;> omega

theorem bitSwap_bitSwap (i : Nat) (h : i < 32) : bitSwap (bitSwap i) = i := by
  unfold bitSwap; split_ifs <;> omega

theorem bswap32_lt (x : Nat) : bswap32 x < 4294967296 := by
  have h32 : bswap32 x < 2 ^ 32 := by
    apply Nat.lt_pow_two_of_testBit
    intro i hi
    rw [testBit_bswap32]
    have hn : ¬ i < 32 := by omega
    simp [hn]
  simpa using h32

theorem bswap32_and (x y : Nat) : bswap32 (x &&& y) = bswap32 x &&& bswap32 y := by
  apply Nat.eq_of_testBit_eq
  intro i
  simp only [testBit_bswap32, Nat.testBit_and]
  cases decide (i < 32) <;> simp

theorem bswap32_or (x y : Nat) : bswap32 (x ||| y) = bswap32 x ||| bswap32 y := by
  apply Nat.eq_of_testBit_eq
  intro i
  simp only [testBit_bswap32, Nat.testBit_or]
  cases decide (i < 32) <;> simp

theorem bswap32_bswap32 (x : Nat) (hx : x < 4294967296) : bswap32 (bswap32 x) = x := by
  apply Nat.eq_of_testBit_eq
  intro i
  rw [testBit_bswap32, testBit_bswap32]
  by_cases hi : i < 32
  · simp [hi, bitSwap_lt i hi, bitSwap_bitSwap i hi]
  · simp [hi, testBit_of_lt32 x i hx hi]

theorem htonl_lt (h : Host) (x : Nat) (hx : x < 4294967296) : htonl h x < 4294967296 := by
  unfold htonl
  split_ifs
  · exact bswap32_lt x
  · exact hx

theorem htonl_and (h : Host) (x y : Nat) : htonl h (x &&& y) = htonl h x &&& htonl h y := by
  unfold htonl
  split_ifs
  · exact bswap32_and x y
  · rfl

theorem ntohl_and (h : Host) (x y : Nat) : ntohl h (x &&& y) = ntohl h x &&& ntohl h y := by
  unfold ntohl
  split_ifs
  · exact bswap32_and x y
  · rfl

theorem ntohl_or (h : Host) (x y : Nat) : ntohl h (x ||| y) = ntohl h x ||| ntohl h y := by
  unfold ntohl
  split_ifs
  · exact bswap32_or x y
  · rfl

theorem htonl_zero (h : Host) : htonl h 0 = 0 := by
  unfold htonl
  split_ifs
  · decide
  · rfl

theorem ntohl_htonl (h : Host) (x : Nat) (hx : x < 4294967296) : ntohl h (htonl h x) = x := by
  unfold ntohl htonl
  split_ifs
  · exact bswap32_bswap32 x hx
  · rfl

theorem not32_lt (m : Nat) (hm : m < 4294967296) : not32 m < 4294967296 := by
  have h32 : m ^^^ 4294967295 < 2 ^ 32 :=
    Nat.xor_lt_two_pow (by simpa using hm) (by norm_num)
  simpa [not32] using h32

/-- The complement of the mask and a value cut down to the mask share no bit. -/
theorem not32_and_masked (m r : Nat) (hm : m < 4294967296) : not32 m &&& (r &&& m) = 0 := by
  apply Nat.eq_of_testBit_eq
  intro i
  simp only [not32, Nat.testBit_and, Nat.testBit_xor, testBit_ones32, Nat.zero_testBit]
  by_cases hi : i < 32
  · cases m.testBit i <;> simp [hi]
  · simp [hi, testBit_of_lt32 m i hm hi]

/-- Cutting a combined address back to the network bits gives the network bits. -/
theorem network_bits (x m r : Nat) (hm : m < 4294967296) :
    ((x &&& not32 m) ||| (r &&& m)) &&& not32 m = x &&& not32 m := by
  apply Nat.eq_of_testBit_eq
  intro i
  simp only [not32, Nat.testBit_and, Nat.testBit_or, Nat.testBit_xor, testBit_ones32]
  by_cases hi : i < 32
  · cases m.testBit i <;> simp [hi]
  · simp [hi, testBit_of_lt32 m i hm hi]

/-- Addition modulo `2^32` of two 32-bit words that share no bit is their bitwise or. -/
theorem add_eq_or32 (a b : Nat) (ha : a < 4294967296) (hb : b < 4294967296)
    (hab : a &&& b = 0) : (a + b) % 4294967296 = a ||| b := by
  have hx : BitVec.ofNat 32 a &&& BitVec.ofNat 32 b = 0#32 := by
    apply BitVec.eq_of_toNat_eq
    simp [Nat.mod_eq_of_lt ha, Nat.mod_eq_of_lt hb, hab]
  have hsum := congrArg BitVec.toNat (BitVec.add_eq_or_of_and_eq_zero _ _ hx)
  simpa [Nat.mod_eq_of_lt ha, Nat.mod_eq_of_lt hb] using hsum

theorem maskOf_lt (h : Host) (p : Nat) (hp : p ≤ 32) : maskOf h p < 4294967296 := by
  rw [maskOf_eq h p hp]
  interval_cases p <;> simp

/-- The destination address for any 32-bit base address and mask. -/
theorem randomDest_eq (h : Host) (e : Cycle) (g : Globals) (hM : g.mask < 4294967296) :
    randomDest h e g = (g.dest &&& htonl h (not32 g.mask)) ||| htonl h (e.random &&& g.mask) ∧
    ntohl h (randomDest h e g) =
      (ntohl h g.dest &&& not32 g.mask) ||| (e.random &&& g.mask) := by
  have hr : e.random &&& g.mask < 4294967296 := by
    have h32 : e.random &&& g.mask < 2 ^ 32 := Nat.and_lt_two_pow _ (by simpa using hM)
    simpa using h32
  have hn : not32 g.mask < 4294967296 := not32_lt _ hM
  have ha : g.dest &&& htonl h (not32 g.mask) < 4294967296 := by
    have h32 : g.dest &&& htonl h (not32 g.mask) < 2 ^ 32 :=
      Nat.and_lt_two_pow _ (by simpa using htonl_lt h _ hn)
    simpa using h32
  have hdisj : (g.dest &&& htonl h (not32 g.mask)) &&& htonl h (e.random &&& g.mask) = 0 := by
    rw [Nat.and_assoc, ← htonl_and, not32_and_masked _ _ hM, htonl_zero, Nat.and_zero]
  have hfirst : randomDest h e g =
      (g.dest &&& htonl h (not32 g.mask)) ||| htonl h (e.random &&& g.mask) := by
    simp only [randomDest]
    rw [Nat.mod_eq_of_lt hr]
    exact add_eq_or32 _ _ ha (htonl_lt h _ hr) hdisj
  refine ⟨hfirst, ?_⟩
  rw [hfirst, ntohl_or, ntohl_and, ntohl_htonl h _ hn, ntohl_htonl h _ hr]

/-- C1: for every 32-bit base address, every prefix length `p ≤ 32` with its derived
mask `M` and every value `r` of `random()`, the address `runloop` computes by addition
modulo `2^32` equals `(A & htonl(~M)) | htonl(r & M)`; read in host byte order it is
`(A & ~M) | (r & M)` with `A` read in host byte order, so its network bits are those
of `A`. -/
theorem random_dest_keeps_network_bits (h : Host) (e : Cycle) (g : Globals) (p : Nat)
    (hp : p ≤ 32) (hM : g.mask = maskOf h p) :
    randomDest h e g = (g.dest &&& htonl h (not32 g.mask)) ||| htonl h (e.random &&& g.mask) ∧
    ntohl h (randomDest h e g) =
      (ntohl h g.dest &&& not32 g.mask) ||| (e.random &&& g.mask) ∧
    ntohl h (randomDest h e g) &&& not32 g.mask = ntohl h g.dest &&& not32 g.mask := by
  have hlt : g.mask < 4294967296 := by
    rw [hM]
    exact maskOf_lt h p hp
  obtain ⟨a1, a2⟩ := randomDest_eq h e g hlt
  refine ⟨a1, a2, ?_⟩
  rw [a2]
  exact network_bits _ _ _ hlt

theorem random_dest_keeps_network_bits_witness :
    randomDest ⟨true, 1⟩ ⟨[], 0, false, 0, 1804289383, 100⟩ { dest := 10, mask := 255 } =
      (10 &&& htonl ⟨true, 1⟩ (not32 255)) ||| htonl ⟨true, 1⟩ (1804289383 &&& 255) ∧
    ntohl ⟨true, 1⟩
        (randomDest ⟨true, 1⟩ ⟨[], 0, false, 0, 1804289383, 100⟩ { dest := 10, mask := 255 }) =
      (ntohl ⟨true, 1⟩ 10 &&& not32 255) ||| (1804289383 &&& 255) ∧
    ntohl ⟨true, 1⟩
        (randomDest ⟨true, 1⟩ ⟨[], 0, false, 0, 1804289383, 100⟩ { dest := 10, mask := 255 })
        &&& not32 255 = ntohl ⟨true, 1⟩ 10 &&& not32 255 :=
  random_dest_keeps_network_bits ⟨true, 1⟩ ⟨[], 0, false, 0, 1804289383, 100⟩
    { dest := 10, mask := 255 } 24 (by decide) (by decide)

end Sendpkt
